import Mathlib

/-!
Shallow embedding of `rtz-core/src/geo/tz/ned.rs` (the NED timezone dataset
model and spatial-cache construction) and proofs of the specification's
claims about it.

Conventions of the embedding:
* the working float type (`crate::base::types::Float`, f32/f64) is embedded
  as `ℚ`; every coordinate value the claims exercise is a small integer,
  exactly representable in either float width, so rational arithmetic agrees
  with the source's float arithmetic on all inputs considered here;
* `usize` ids are embedded as `Nat`; `i16` (`RoundInt`) values are embedded
  as `Int`, and the `as i16` casts of the source are explicit wrapping
  functions (`toRoundInt`, `intToRoundInt`);
* code that can panic (`unwrap`, explicit `panic!`-style aborts, out-of-range
  indexing) is embedded as `Option`-returning code, `none` meaning the panic;
* the parallel sweep writes to a concurrent map keyed by cell, each key
  written once; the map is embedded as a left fold of last-wins inserts over
  the produced entry list, and scheduling freedom is captured by quantifying
  over permutations of that entry list.
-/

namespace Rtz

/-- A coordinate of the geo crate (`geo::Coord<Float>`), float fields
embedded as `ℚ`. -/
structure Coord where
  x : ℚ
  y : ℚ
deriving DecidableEq

/-- An axis-aligned rectangle of the geo crate (`geo::Rect<Float>`). -/
structure Rect where
  min : Coord
  max : Coord
deriving DecidableEq

/-- The geo crate's `Rect::new`, which normalizes the two corners into
min/max form. -/
def Rect.new (c1 c2 : Coord) : Rect :=
  ⟨⟨Min.min c1.x c2.x, Min.min c1.y c2.y⟩, ⟨Max.max c1.x c2.x, Max.max c1.y c2.y⟩⟩

/-- The geo crate's `Geometry<Float>` as used by the concrete scenarios of
the spec: an axis-aligned rectangular polygon.  The sweep itself is kept
parametric in the geometry type and its intersects predicate, so theorems
about the sweep cover arbitrary geometries. -/
inductive Geometry where
  | rectPolygon (r : Rect)
deriving DecidableEq

/-- Modelled from the spec: the geometry library's rectangle-vs-geometry
`Intersects` predicate (the external geo crate): "any shared point, including
boundary contact, counts as intersecting; no extra epsilon tolerance is
applied".  For an axis-aligned rectangular polygon against a rectangle this
is closed-interval overlap on both axes. -/
def Geometry.intersects : Geometry → Rect → Bool
  | .rectPolygon r, q =>
    decide (r.min.x ≤ q.max.x) && decide (q.min.x ≤ r.max.x) &&
    decide (r.min.y ≤ q.max.y) && decide (q.min.y ≤ r.max.y)

/-- A rounded integer: `pub type RoundInt = i16;`.  i16 values are embedded
as `Int`; the wrapping casts into i16 are explicit. -/
abbrev RoundInt := Int

/-- The fixed candidate-array capacity (`TIMEZONE_LIST_LENGTH`). -/
def TIMEZONE_LIST_LENGTH : Nat := 5

/-- The `as RoundInt` cast of a `usize`: truncation to 16 bits,
reinterpreted as two's-complement i16. -/
def toRoundInt (n : Nat) : Int :=
  if n % 65536 < 32768 then ((n % 65536 : Nat) : Int) else ((n % 65536 : Nat) : Int) - 65536

/-- The `as RoundInt` cast of a signed integer (used on the loop variables
`x : -180..180` and `y : -90..90`): truncation to 16 bits,
two's-complement. -/
def intToRoundInt (x : Int) : Int :=
  (x + 32768) % 65536 - 32768

/-- `NedTimezone`, parametric in the geometry representation `G` (the source
fixes `G = geo::Geometry<Float>`). -/
structure NedTimezone (G : Type) where
  id : Nat
  identifier : Option String
  description : String
  dst_description : Option String
  offset : String
  zone : ℚ
  raw_offset : Int
  bbox : Rect
  geometry : G
deriving DecidableEq

/-- The unit rectangle built for grid cell `(x, y)`:
`Rect::new(Coord { x: xf, y: yf }, Coord { x: xf + 1.0, y: yf + 1.0 })`. -/
def cellRect (x y : Int) : Rect :=
  Rect.new ⟨(x : ℚ), (y : ℚ)⟩ ⟨(x : ℚ) + 1, (y : ℚ) + 1⟩

/-- The inner loop of `get_cache_from_timezones` for one cell: test every
timezone in dataset order against the cell rectangle and push the
intersecting ids (cast `as RoundInt`). -/
def cellEntry {G : Type} (intersects : G → Rect → Bool) (timezones : List (NedTimezone G))
    (x y : Int) : List RoundInt :=
  timezones.foldl
    (fun acc tz => if intersects tz.geometry (cellRect x y) then acc ++ [toRoundInt tz.id] else acc)
    []

/-- The longitude loop values `-180..180` in loop order. -/
def xRange : List Int := List.map (fun n : Nat => -180 + (n : Int)) (List.range 360)

/-- The latitude loop values `-90..90` in loop order. -/
def yRange : List Int := List.map (fun n : Nat => -90 + (n : Int)) (List.range 180)

/-- All `(key, value)` pairs inserted into the concurrent map by the sweep,
in the canonical (single-worker) order: for each longitude band, each
latitude, the cell key `(x as RoundInt, y as RoundInt)` and its entry. -/
def sweepEntries {G : Type} (intersects : G → Rect → Bool)
    (timezones : List (NedTimezone G)) : List ((Int × Int) × List RoundInt) :=
  xRange.flatMap (fun x =>
    yRange.map (fun y => ((intToRoundInt x, intToRoundInt y), cellEntry intersects timezones x y)))

/-- Last-wins insertion of a list of key/value pairs into an initially empty
map (the concurrent accumulation map followed by the drain into the final
`HashMap`, both of which are keyed inserts). -/
def insertAll (entries : List ((Int × Int) × List RoundInt)) : Int × Int → Option (List RoundInt) :=
  entries.foldl (fun m e => fun k => if k = e.1 then some e.2 else m k) (fun _ => none)

/-- `get_cache_from_timezones`: the full sweep, producing the final map from
cell keys to candidate lists. -/
def get_cache_from_timezones {G : Type} (intersects : G → Rect → Bool)
    (timezones : List (NedTimezone G)) : Int × Int → Option (List RoundInt) :=
  insertAll (sweepEntries intersects timezones)

/-- Modelled from the spec: the `PersistenceBridge` encode step
(`bincode::serde::encode_to_vec` in `generate_cache_bincode`, an external
codec): "encode(cache) produce deterministic compact binary byte sequences
for a given input structure (field order fixed by the data model)".  Embedded
as the sequence of the map's entries in the fixed cell order. -/
def encodeCache (cache : Int × Int → Option (List RoundInt)) : List (Option (List RoundInt)) :=
  xRange.flatMap (fun x => yRange.map (fun y => cache (intToRoundInt x, intToRoundInt y)))

/-- A JSON property value (`serde_json::Value`) as far as the extraction
code observes it. -/
inductive JsonValue where
  | null
  | bool (b : Bool)
  | num (q : ℚ)
  | str (s : String)
deriving DecidableEq

/-- `serde_json::Value::as_str`: `Some` exactly on strings. -/
def JsonValue.as_str : JsonValue → Option String
  | .str s => some s
  | _ => none

/-- `serde_json::Value::as_f64`: `Some` exactly on numbers. -/
def JsonValue.as_f64 : JsonValue → Option ℚ
  | .num q => some q
  | _ => none

/-- A feature's property map (`serde_json::Map<String, Value>`), embedded as
an association list. -/
abbrev Properties := List (String × JsonValue)

/-- Key lookup in a property map (`Map::get`). -/
def lookupProp (props : Properties) (key : String) : Option JsonValue :=
  match props with
  | [] => none
  | (k, v) :: rest => if k = key then some v else lookupProp rest key

/-- Modelled from the spec: a `geojson::Value` geometry payload (external
geojson crate).  Its conversion into a `geo::Geometry` can fail
("unconvertible geometry is a fatal construction error"); the payloads the
claims exercise are rectangular polygons, which convert. -/
inductive GeoJsonValue where
  | rectPolygon (r : Rect)
  | unconvertible
deriving DecidableEq

/-- Modelled from the spec: `geometry.value.clone().try_into()` for the geo
crate's `TryFrom<geojson::Value>` — succeeds exactly on convertible
payloads. -/
def geoJsonValueToGeometry : GeoJsonValue → Option Geometry
  | .rectPolygon r => some (Geometry.rectPolygon r)
  | .unconvertible => none

/-- A `geojson::Feature` as far as the construction code observes it: the
three `Option` fields it unwraps. -/
structure Feature where
  bbox : Option (List ℚ)
  properties : Option Properties
  geometry : Option GeoJsonValue
deriving DecidableEq

/-- Rust's `f32::round`: round half away from zero. -/
def rustRound (q : ℚ) : Int :=
  if 0 ≤ q then (q + mkRat 1 2).floor else -((-q + mkRat 1 2).floor)

/-- Short-circuiting sequencing of fallible steps (`Option.bind`, behind a
definition so long chains stay linear). -/
def obind {α β : Type} (o : Option α) (f : α → Option β) : Option β :=
  Option.bind o f

/-- `From<(usize, &geojson::Feature)> for NedTimezone`.  Every `unwrap` (a
panic on `None`) and the `bbox[i]` indexing (a panic when out of bounds) is
an `Option` bind; the binds appear in the source's evaluation order.  The
f64→f32 narrowing of `zone` is the identity on the rationals considered
here. -/
def nedTimezoneFromFeature (idx : Nat) (f : Feature) : Option (NedTimezone Geometry) :=
  obind f.bbox fun bbox =>
  obind f.properties fun properties =>
  obind f.geometry fun geometry =>
  obind (lookupProp properties "dst_places") fun dstPlacesVal =>
  obind (lookupProp properties "places") fun placesVal =>
  obind placesVal.as_str fun places =>
  obind (lookupProp properties "time_zone") fun timeZoneVal =>
  obind timeZoneVal.as_str fun time_zone =>
  obind (lookupProp properties "tz_name1st") fun tzName1stVal =>
  obind (lookupProp properties "zone") fun zoneVal =>
  obind zoneVal.as_f64 fun zone =>
  obind (bbox.get? 0) fun b0 =>
  obind (bbox.get? 1) fun b1 =>
  obind (bbox.get? 2) fun b2 =>
  obind (bbox.get? 3) fun b3 =>
  obind (geoJsonValueToGeometry geometry) fun geom =>
  some { id := idx, identifier := tzName1stVal.as_str, description := places,
         dst_description := dstPlacesVal.as_str, offset := time_zone, zone := zone,
         raw_offset := rustRound (zone * 3600),
         bbox := Rect.new ⟨b0, b1⟩ ⟨b2, b3⟩, geometry := geom }

/-- `get_timezones_from_features` / `From<&FeatureCollection> for
ConcreteTimezones`: `features.iter().enumerate().map(NedTimezone::from)
.collect()`, with a panic anywhere failing the whole construction.  The
`ConcreteTimezones` newtype wrapper around the `Vec` is elided (it derefs to
the vector everywhere). -/
def get_timezones_from_features (features : List Feature) :
    Option (List (NedTimezone Geometry)) :=
  features.enum.mapM (fun p => nedTimezoneFromFeature p.1 p.2)

/-- `i16_vec_to_tomezoneids`: convert a candidate list into the fixed
5-slot array (embedded as a length-5 list), `-1` filling unused slots; a
list longer than the capacity panics (`none`). -/
def i16_vec_to_tomezoneids (value : List RoundInt) : Option (List RoundInt) :=
  if value.length > TIMEZONE_LIST_LENGTH then
    none
  else
    some [value.getD 0 (-1), value.getD 1 (-1), value.getD 2 (-1),
          value.getD 3 (-1), value.getD 4 (-1)]

/-- The list of all cell keys in sweep order. -/
def allCellKeys : List (Int × Int) :=
  xRange.flatMap (fun x => yRange.map (fun y => (x, y)))

/-- Scenario A's single rectangular polygon geometry spanning
lng [-10,10], lat [-10,10]. -/
def scenarioAGeometry : Geometry :=
  Geometry.rectPolygon (Rect.new ⟨-10, -10⟩ ⟨10, 10⟩)

/-- Scenario A's dataset: the single timezone record (id 0, "Test/Zone",
zone 0.0) over that polygon. -/
def scenarioATimezones : List (NedTimezone Geometry) :=
  [{ id := 0, identifier := some "Test/Zone", description := "Test",
     dst_description := none, offset := "UTC+00:00", zone := 0, raw_offset := 0,
     bbox := Rect.new ⟨-10, -10⟩ ⟨10, 10⟩, geometry := scenarioAGeometry }]

/-- A geometry that covers the whole grid (used to exhibit i16 wrap-around
in an oversized dataset). -/
def bigGeometry : Geometry :=
  Geometry.rectPolygon (Rect.new ⟨-200, -200⟩ ⟨200, 200⟩)

/-- An oversized dataset of 32769 records with sequential 0-based ids, all
sharing the grid-covering geometry. -/
def bigTimezones : List (NedTimezone Geometry) :=
  (List.range 32769).map (fun i =>
    { id := i, identifier := none, description := "big", dst_description := none,
      offset := "UTC+00:00", zone := 0, raw_offset := 0,
      bbox := Rect.new ⟨-200, -200⟩ ⟨200, 200⟩, geometry := bigGeometry })

/-- A property map carrying all three required fields with the right types
but neither of the keys "dst_places" and "tz_name1st". -/
def propsMissingOptionals : Properties :=
  [("places", JsonValue.str "Test Places"),
   ("time_zone", JsonValue.str "UTC+00:00"),
   ("zone", JsonValue.num 0)]

/-- A feature whose property map is `propsMissingOptionals` and whose other
fields are all present and convertible. -/
def featureMissingOptionals : Feature :=
  { bbox := some [-10, -10, 10, 10],
    properties := some propsMissingOptionals,
    geometry := some (GeoJsonValue.rectPolygon (Rect.new ⟨-10, -10⟩ ⟨10, 10⟩)) }

/-- A property map carrying the three required fields and both optional keys
bound to JSON `null`. -/
def propsNullOptionals : Properties :=
  [("dst_places", JsonValue.null),
   ("places", JsonValue.str "Test Places"),
   ("time_zone", JsonValue.str "UTC+00:00"),
   ("tz_name1st", JsonValue.null),
   ("zone", JsonValue.num 0)]

/-- A feature whose property map is `propsNullOptionals` and whose other
fields are all present and convertible. -/
def featureNullOptionals : Feature :=
  { bbox := some [-10, -10, 10, 10],
    properties := some propsNullOptionals,
    geometry := some (GeoJsonValue.rectPolygon (Rect.new ⟨-10, -10⟩ ⟨10, 10⟩)) }

/-- A property map lacking the required key "time_zone". -/
def propsMissingTimeZone : Properties :=
  [("places", JsonValue.str "X"), ("dst_places", JsonValue.null),
   ("tz_name1st", JsonValue.null), ("zone", JsonValue.num 1)]

/-- A feature whose property map lacks the required key "time_zone". -/
def featureMissingTimeZone : Feature :=
  { bbox := some [1, 2, 3, 4],
    properties := some propsMissingTimeZone,
    geometry := some (GeoJsonValue.rectPolygon (Rect.new ⟨1, 2⟩ ⟨3, 4⟩)) }

/-! Helper lemmas about the sweep and the accumulation map. -/

/-- Folding the conditional-push loop body over a list is filtering then
mapping. -/
lemma foldl_push_filter {α β : Type} (p : α → Bool) (f : α → β) (l : List α) :
    ∀ acc : List β,
      l.foldl (fun a x => if p x then a ++ [f x] else a) acc = acc ++ (l.filter p).map f := by
  induction l with
  | nil => intro acc; simp
  | cons x t ih =>
    intro acc
    simp only [List.foldl_cons, List.filter_cons]
    by_cases h : p x
    · simp only [h, if_true, ih, List.map_cons, List.append_assoc, List.cons_append,
        List.nil_append]
    · simp only [h, if_false, ih, Bool.false_eq_true]

/-- The entry computed for a cell is the dataset filtered by the intersects
predicate, ids cast to `RoundInt`. -/
lemma cellEntry_eq {G : Type} (intersects : G → Rect → Bool) (timezones : List (NedTimezone G))
    (x y : Int) :
    cellEntry intersects timezones x y
      = (timezones.filter (fun tz => intersects tz.geometry (cellRect x y))).map
          (fun tz => toRoundInt tz.id) := by
  simpa using foldl_push_filter (fun tz => intersects tz.geometry (cellRect x y))
    (fun tz => toRoundInt tz.id) timezones []

/-- Unfolding the insert fold: the map looks up the last inserted binding of
the key. -/
lemma insertAll_foldl (l : List ((Int × Int) × List RoundInt)) :
    ∀ (m0 : Int × Int → Option (List RoundInt)) (k : Int × Int),
      l.foldl (fun m e => fun k' => if k' = e.1 then some e.2 else m k') m0 k
        = ((l.reverse.find? (fun e => decide (k = e.1))).map Prod.snd).or (m0 k) := by
  induction l with
  | nil => intro m0 k; simp
  | cons e t ih =>
    intro m0 k
    simp only [List.foldl_cons, List.reverse_cons, List.find?_append, ih]
    cases hf : t.reverse.find? (fun e' => decide (k = e'.1)) with
    | some z => simp [Option.or]
    | none =>
      simp only [Option.map_none', Option.none_or]
      by_cases hk : k = e.1
      · simp [List.find?_cons, hk, Option.or]
      · simp [List.find?_cons, hk, Option.or]

/-- The accumulated map, applied to a key. -/
lemma insertAll_apply (l : List ((Int × Int) × List RoundInt)) (k : Int × Int) :
    insertAll l k = (l.reverse.find? (fun e => decide (k = e.1))).map Prod.snd := by
  rw [insertAll, insertAll_foldl, Option.or_none]

/-- A key never inserted maps to nothing. -/
lemma insertAll_eq_none (l : List ((Int × Int) × List RoundInt)) (k : Int × Int)
    (hk : ∀ e ∈ l, e.1 ≠ k) : insertAll l k = none := by
  rw [insertAll_apply, List.find?_eq_none.mpr, Option.map_none']
  intro e he
  simp only [decide_eq_true_eq]
  exact fun h => hk e (List.mem_reverse.mp he) h.symm

/-- With pairwise-distinct keys, the binding of a key is unique in the
entry list. -/
lemma keys_unique {α β : Type} {l : List (α × β)} (hnd : (l.map Prod.fst).Nodup)
    {k : α} {v : β} (hm : (k, v) ∈ l) {e : α × β} (he : e ∈ l) (hk : e.1 = k) : e = (k, v) := by
  induction l with
  | nil => cases hm
  | cons a t ih =>
    simp only [List.map_cons, List.nodup_cons] at hnd
    rcases List.mem_cons.mp hm with hm1 | hm2
    · rcases List.mem_cons.mp he with he1 | he2
      · subst he1; rw [← hm1]
      · exact absurd (by rw [← hm1]; exact List.mem_map.mpr ⟨e, he2, hk⟩) hnd.1
    · rcases List.mem_cons.mp he with he1 | he2
      · subst he1
        exact absurd (hk ▸ List.mem_map.mpr ⟨(k, v), hm2, rfl⟩) hnd.1
      · exact ih hnd.2 hm2 he2

/-- With pairwise-distinct keys, an inserted binding is what the map
returns. -/
lemma insertAll_eq_some_of_mem (l : List ((Int × Int) × List RoundInt))
    (k : Int × Int) (v : List RoundInt) (hnd : (l.map Prod.fst).Nodup) (hm : (k, v) ∈ l) :
    insertAll l k = some v := by
  rw [insertAll_apply]
  cases hf : l.reverse.find? (fun e => decide (k = e.1)) with
  | none =>
    have := List.find?_eq_none.mp hf (k, v) (List.mem_reverse.mpr hm)
    simp at this
  | some e =>
    have he1 : k = e.1 := by simpa using List.find?_some hf
    have he2 : e ∈ l := List.mem_reverse.mp (List.mem_of_find?_eq_some hf)
    rw [keys_unique hnd hm he2 he1.symm]
    rfl

/-- Longitude loop values are exactly `[-180, 179]`. -/
lemma mem_xRange {x : Int} : x ∈ xRange ↔ -180 ≤ x ∧ x < 180 := by
  unfold xRange
  rw [List.mem_map]
  constructor
  · rintro ⟨n, hn, rfl⟩
    rw [List.mem_range] at hn
    omega
  · intro h
    refine ⟨(x + 180).toNat, ?_, ?_⟩
    · rw [List.mem_range]; omega
    · omega

/-- Latitude loop values are exactly `[-90, 89]`. -/
lemma mem_yRange {y : Int} : y ∈ yRange ↔ -90 ≤ y ∧ y < 90 := by
  unfold yRange
  rw [List.mem_map]
  constructor
  · rintro ⟨n, hn, rfl⟩
    rw [List.mem_range] at hn
    omega
  · intro h
    refine ⟨(y + 90).toNat, ?_, ?_⟩
    · rw [List.mem_range]; omega
    · omega

/-- The longitude loop visits each value once. -/
lemma xRange_nodup : xRange.Nodup := by
  unfold xRange
  exact List.Nodup.map (fun a b h => by omega) (List.nodup_range 360)

/-- The latitude loop visits each value once. -/
lemma yRange_nodup : yRange.Nodup := by
  unfold yRange
  exact List.Nodup.map (fun a b h => by omega) (List.nodup_range 180)

/-- The `as i16` cast is the identity inside the i16 range (in particular on
all loop coordinates). -/
lemma intToRoundInt_eq_self {x : Int} (h1 : -32768 ≤ x) (h2 : x < 32768) :
    intToRoundInt x = x := by
  unfold intToRoundInt; omega

/-- Flat-mapping depends only on the function's values on the list. -/
lemma flatMap_congr_mem {α β : Type} {l : List α} {f g : α → List β}
    (h : ∀ a ∈ l, f a = g a) : l.flatMap f = l.flatMap g := by
  induction l with
  | nil => rfl
  | cons a t ih =>
    simp only [List.flatMap_cons]
    rw [h a (List.mem_cons_self a t), ih (fun b hb => h b (List.mem_cons_of_mem a hb))]

/-- The keys inserted by the sweep are the cell keys, in sweep order (the
`as i16` cast on a loop coordinate is the identity). -/
lemma sweepEntries_keys {G : Type} (intersects : G → Rect → Bool)
    (timezones : List (NedTimezone G)) :
    (sweepEntries intersects timezones).map Prod.fst = allCellKeys := by
  unfold sweepEntries allCellKeys
  rw [List.map_flatMap]
  apply flatMap_congr_mem
  intro x hx
  rw [List.map_map]
  apply List.map_congr_left
  intro y hy
  have hx' := mem_xRange.mp hx
  have hy' := mem_yRange.mp hy
  simp only [Function.comp_apply]
  rw [intToRoundInt_eq_self (by omega) (by omega),
    intToRoundInt_eq_self (by omega) (by omega)]

/-- Membership in the cell-key list is exactly the in-range condition. -/
lemma mem_allCellKeys {k : Int × Int} :
    k ∈ allCellKeys ↔ -180 ≤ k.1 ∧ k.1 < 180 ∧ -90 ≤ k.2 ∧ k.2 < 90 := by
  obtain ⟨kx, ky⟩ := k
  unfold allCellKeys
  rw [List.mem_flatMap]
  constructor
  · rintro ⟨x, hx, hk⟩
    rw [List.mem_map] at hk
    obtain ⟨y, hy, hxy⟩ := hk
    cases hxy
    have hx' := mem_xRange.mp hx
    have hy' := mem_yRange.mp hy
    exact ⟨hx'.1, hx'.2, hy'.1, hy'.2⟩
  · rintro ⟨h1, h2, h3, h4⟩
    exact ⟨kx, mem_xRange.mpr ⟨h1, h2⟩,
      List.mem_map.mpr ⟨ky, mem_yRange.mpr ⟨h3, h4⟩, rfl⟩⟩

/-- Each cell key occurs exactly once in the sweep. -/
lemma allCellKeys_nodup : allCellKeys.Nodup := by
  unfold allCellKeys
  rw [List.nodup_flatMap]
  constructor
  · intro x _
    exact List.Nodup.map (fun a b h => congrArg Prod.snd h) yRange_nodup
  · apply List.Pairwise.imp ?_ xRange_nodup
    intro a b hab
    intro k hka hkb
    rw [List.mem_map] at hka hkb
    obtain ⟨y1, _, h1⟩ := hka
    obtain ⟨y2, _, h2⟩ := hkb
    exact hab (by rw [← h1] at h2; exact (congrArg Prod.fst h2).symm)

/-- There are 64,800 cells. -/
lemma allCellKeys_length : allCellKeys.length = 64800 := by
  unfold allCellKeys
  rw [List.length_flatMap]
  have h1 : List.map (List.length ∘ fun x => yRange.map (fun y => (x, y))) xRange
      = List.map (fun _ => 180) xRange := by
    apply List.map_congr_left
    intro x _
    simp only [Function.comp_apply, List.length_map]
    unfold yRange
    rw [List.length_map, List.length_range]
  rw [h1]
  have h2 : List.map (fun _ => (180 : Nat)) xRange = List.replicate xRange.length 180 :=
    List.map_const xRange 180
  rw [h2, List.sum_replicate, smul_eq_mul]
  unfold xRange
  rw [List.length_map, List.length_range]

/-- Membership in the sweep's entry list: exactly one binding per in-range
cell, carrying that cell's entry. -/
lemma mem_sweepEntries {G : Type} {intersects : G → Rect → Bool}
    {timezones : List (NedTimezone G)} {k : Int × Int} {v : List RoundInt} :
    (k, v) ∈ sweepEntries intersects timezones ↔
      -180 ≤ k.1 ∧ k.1 < 180 ∧ -90 ≤ k.2 ∧ k.2 < 90 ∧ v = cellEntry intersects timezones k.1 k.2 := by
  obtain ⟨kx, ky⟩ := k
  unfold sweepEntries
  rw [List.mem_flatMap]
  constructor
  · rintro ⟨x, hx, hk⟩
    rw [List.mem_map] at hk
    obtain ⟨y, hy, hxy⟩ := hk
    have hx' := mem_xRange.mp hx
    have hy' := mem_yRange.mp hy
    rw [intToRoundInt_eq_self (by omega) (by omega),
      intToRoundInt_eq_self (by omega) (by omega)] at hxy
    cases hxy
    exact ⟨hx'.1, hx'.2, hy'.1, hy'.2, rfl⟩
  · rintro ⟨h1, h2, h3, h4, rfl⟩
    refine ⟨kx, mem_xRange.mpr ⟨h1, h2⟩, List.mem_map.mpr ⟨ky, mem_yRange.mpr ⟨h3, h4⟩, ?_⟩⟩
    rw [intToRoundInt_eq_self (by omega) (by omega),
      intToRoundInt_eq_self (by omega) (by omega)]

/-- Core characterization: inserting any permutation of the sweep's entries
(i.e. any interleaving of the workers' writes) produces the map sending each
in-range cell to its entry and everything else to nothing. -/
lemma lookup_perm_sweep {G : Type} {intersects : G → Rect → Bool}
    {timezones : List (NedTimezone G)} {entries : List ((Int × Int) × List RoundInt)}
    (hp : entries.Perm (sweepEntries intersects timezones)) (x y : Int) :
    insertAll entries (x, y)
      = if -180 ≤ x ∧ x < 180 ∧ -90 ≤ y ∧ y < 90 then
          some (cellEntry intersects timezones x y)
        else none := by
  have hnd : (entries.map Prod.fst).Nodup := by
    rw [(hp.map Prod.fst).nodup_iff, sweepEntries_keys]
    exact allCellKeys_nodup
  by_cases h : -180 ≤ x ∧ x < 180 ∧ -90 ≤ y ∧ y < 90
  · rw [if_pos h]
    exact insertAll_eq_some_of_mem _ _ _ hnd
      (hp.mem_iff.mpr (mem_sweepEntries.mpr ⟨h.1, h.2.1, h.2.2.1, h.2.2.2, rfl⟩))
  · rw [if_neg h]
    apply insertAll_eq_none
    rintro ⟨k, v⟩ he hk
    have hk' : k = (x, y) := hk
    rw [hk'] at he
    have := mem_sweepEntries.mp (hp.mem_iff.mp he)
    exact h ⟨this.1, this.2.1, this.2.2.1, this.2.2.2.1⟩

/-- The final map of the sweep, at any in-range cell, is that cell's
filtered candidate list. -/
lemma get_cache_apply {G : Type} (intersects : G → Rect → Bool)
    (timezones : List (NedTimezone G)) (x y : Int) :
    get_cache_from_timezones intersects timezones (x, y)
      = if -180 ≤ x ∧ x < 180 ∧ -90 ≤ y ∧ y < 90 then
          some (cellEntry intersects timezones x y)
        else none :=
  lookup_perm_sweep (List.Perm.refl _) x y

/-- The cell rectangle's corners are already normalized. -/
lemma cellRect_min_max (x y : Int) :
    cellRect x y = ⟨⟨(x : ℚ), (y : ℚ)⟩, ⟨(x : ℚ) + 1, (y : ℚ) + 1⟩⟩ := by
  have hx : (x : ℚ) ≤ (x : ℚ) + 1 := by linarith
  have hy : (y : ℚ) ≤ (y : ℚ) + 1 := by linarith
  unfold cellRect Rect.new
  rw [min_eq_left hx, min_eq_left hy, max_eq_right hx, max_eq_right hy]

/-- The usize→i16 cast is the identity below 32768. -/
lemma toRoundInt_nat_eq_self {n : Nat} (h : n < 32768) : toRoundInt n = (n : Int) := by
  unfold toRoundInt
  rw [Nat.mod_eq_of_lt (by omega)]
  rw [if_pos h]

/-- A rational-coordinate comparison against an integer shifted by one,
restated over the integers. -/
lemma ratCast_le_add_one {a x : Int} : ((a : ℚ) ≤ (x : ℚ) + 1) ↔ a ≤ x + 1 := by
  rw [show ((x : ℚ) + 1) = ((x + 1 : Int) : ℚ) by push_cast; ring]
  exact Int.cast_le

/-- A rational-coordinate comparison between two integers, restated over the
integers. -/
lemma ratCast_le {a x : Int} : ((x : ℚ) ≤ (a : ℚ)) ↔ x ≤ a :=
  Int.cast_le

/-- Scenario A's polygon intersects exactly the cells whose closed unit
rectangle meets the closed square lng [-10,10] × lat [-10,10]; these are the
cells with lng ∈ [-11,10] and lat ∈ [-11,10]. -/
lemma scenarioA_intersects_iff (x y : Int) :
    Geometry.intersects scenarioAGeometry (cellRect x y) = true
      ↔ (-11 ≤ x ∧ x ≤ 10 ∧ -11 ≤ y ∧ y ≤ 10) := by
  rw [cellRect_min_max]
  unfold scenarioAGeometry Geometry.intersects Rect.new
  simp only [Bool.and_eq_true, decide_eq_true_eq]
  rw [show Min.min (-10 : ℚ) 10 = -10 by norm_num,
    show Max.max (-10 : ℚ) 10 = 10 by norm_num]
  have h : (((-10 ≤ x + 1 ∧ x ≤ 10) ∧ -10 ≤ y + 1) ∧ y ≤ 10)
      ↔ (-11 ≤ x ∧ x ≤ 10 ∧ -11 ≤ y ∧ y ≤ 10) := by omega
  exact_mod_cast h

/-- Scenario A's per-cell entry: `[0]` on the cells meeting the polygon,
`[]` elsewhere. -/
lemma scenarioA_cellEntry (x y : Int) :
    cellEntry Geometry.intersects scenarioATimezones x y
      = if -11 ≤ x ∧ x ≤ 10 ∧ -11 ≤ y ∧ y ≤ 10 then [0] else [] := by
  rw [cellEntry_eq]
  unfold scenarioATimezones
  by_cases h : -11 ≤ x ∧ x ≤ 10 ∧ -11 ≤ y ∧ y ≤ 10
  · rw [if_pos h]
    have hi : Geometry.intersects scenarioAGeometry (cellRect x y) = true :=
      (scenarioA_intersects_iff x y).mpr h
    simp only [List.filter_cons, List.filter_nil, hi, if_true, List.map_cons, List.map_nil]
    rfl
  · rw [if_neg h]
    have hi : ¬ Geometry.intersects scenarioAGeometry (cellRect x y) = true :=
      fun hh => h ((scenarioA_intersects_iff x y).mp hh)
    simp only [List.filter_cons, List.filter_nil, hi, if_false, List.map_nil]
    rfl

/-- The grid-covering geometry intersects the cell at the origin. -/
lemma bigGeometry_intersects_origin :
    Geometry.intersects bigGeometry (cellRect 0 0) = true := by
  rw [cellRect_min_max]
  unfold bigGeometry Geometry.intersects Rect.new
  simp only [Bool.and_eq_true, decide_eq_true_eq]
  norm_num

/-- The oversized dataset's ids are the sequential 0-based positions. -/
lemma bigTimezones_ids : ∀ i (h : i < bigTimezones.length),
    (bigTimezones.get ⟨i, h⟩).id = i := by
  intro i h
  unfold bigTimezones at h ⊢
  rw [List.get_eq_getElem, List.getElem_map, List.getElem_range]

/-- The oversized dataset's entry at the origin cell is the whole id range,
cast to i16. -/
lemma bigTimezones_cellEntry :
    cellEntry Geometry.intersects bigTimezones 0 0
      = (List.range 32769).map (fun i => toRoundInt i) := by
  rw [cellEntry_eq]
  have hfil : bigTimezones.filter
      (fun tz => Geometry.intersects tz.geometry (cellRect 0 0)) = bigTimezones := by
    apply List.filter_eq_self.mpr
    intro tz htz
    have hg : tz.geometry = bigGeometry := by
      unfold bigTimezones at htz
      rw [List.mem_map] at htz
      obtain ⟨i, _, rfl⟩ := htz
      rfl
    rw [hg]
    exact bigGeometry_intersects_origin
  rw [hfil]
  unfold bigTimezones
  rw [List.map_map]
  rfl

/-- The bind wrapper succeeds exactly when the step and the continuation
do. -/
lemma obind_eq_some {α β : Type} {o : Option α} {f : α → Option β} {b : β} :
    obind o f = some b ↔ ∃ a, o = some a ∧ f a = some b := Option.bind_eq_some

/-- Construction fails on any feature whose property map lacks
"time_zone", whatever its other fields hold. -/
lemma fromFeature_missing_tz_none (idx : Nat) (f : Feature) (props : Properties)
    (hp : f.properties = some props) (hmiss : lookupProp props "time_zone" = none) :
    nedTimezoneFromFeature idx f = none := by
  cases hres : nedTimezoneFromFeature idx f with
  | none => rfl
  | some tz =>
    exfalso
    unfold nedTimezoneFromFeature at hres
    obtain ⟨bb, -, hres⟩ := obind_eq_some.mp hres
    obtain ⟨props2, hp2, hres⟩ := obind_eq_some.mp hres
    obtain ⟨g, -, hres⟩ := obind_eq_some.mp hres
    obtain ⟨dv, -, hres⟩ := obind_eq_some.mp hres
    obtain ⟨pv, -, hres⟩ := obind_eq_some.mp hres
    obtain ⟨ps, -, hres⟩ := obind_eq_some.mp hres
    obtain ⟨tzv, htzv, -⟩ := obind_eq_some.mp hres
    rw [hp] at hp2
    cases Option.some.inj hp2
    rw [hmiss] at htzv
    cases htzv

/-- One always-failing feature anywhere in the collection fails the whole
enumerated construction. -/
lemma mapM_enumFrom_none (features : List Feature) (f : Feature) (hf : f ∈ features)
    (hnone : ∀ idx, nedTimezoneFromFeature idx f = none) :
    ∀ k : Nat, (List.enumFrom k features).mapM (fun p => nedTimezoneFromFeature p.1 p.2) = none := by
  induction features with
  | nil => cases hf
  | cons a t ih =>
    intro k
    rw [List.enumFrom_cons, List.mapM_cons]
    rcases List.mem_cons.mp hf with rfl | hft
    · simp only [bind, hnone k, Option.none_bind]
    · have hih := ih hft (k + 1)
      cases ha : nedTimezoneFromFeature k a with
      | none => simp only [bind, ha, Option.none_bind]
      | some tz => simp only [bind, ha, Option.some_bind, hih, Option.none_bind]

/-- A successful enumerated construction built the i-th record from the i-th
feature, with the running index. -/
lemma mapM_enumFrom_some (features : List Feature) :
    ∀ (k : Nat) (timezones : List (NedTimezone Geometry)),
      (List.enumFrom k features).mapM (fun p => nedTimezoneFromFeature p.1 p.2) = some timezones →
      timezones.length = features.length ∧
      ∀ i (hi : i < timezones.length),
        ∃ hf : i < features.length,
          nedTimezoneFromFeature (k + i) (features.get ⟨i, hf⟩) = some (timezones.get ⟨i, hi⟩) := by
  induction features with
  | nil =>
    intro k timezones h
    simp only [List.enumFrom, List.mapM_nil, Option.pure_def, Option.some.injEq] at h
    subst h
    exact ⟨rfl, fun i hi => absurd hi (by simp)⟩
  | cons a t ih =>
    intro k timezones h
    rw [List.enumFrom_cons, List.mapM_cons] at h
    simp only [bind, Option.bind_eq_some, Option.pure_def, Option.some.injEq] at h
    obtain ⟨b, hb, bs, hbs, rfl⟩ := h
    obtain ⟨hlen, hrest⟩ := ih (k + 1) bs hbs
    refine ⟨by simp [hlen], ?_⟩
    intro i hi
    cases i with
    | zero => exact ⟨by simp, by simpa using hb⟩
    | succ n =>
      have hn : n < bs.length := by simpa using hi
      obtain ⟨hf, hfe⟩ := hrest n hn
      refine ⟨by simpa using hf, ?_⟩
      rw [show k + (n + 1) = (k + 1) + n by omega]
      simpa using hfe

/-- A successfully constructed record carries the enumeration index as its
id. -/
lemma fromFeature_id (idx : Nat) (f : Feature) (tz : NedTimezone Geometry)
    (h : nedTimezoneFromFeature idx f = some tz) : tz.id = idx := by
  unfold nedTimezoneFromFeature at h
  obtain ⟨bb, -, h⟩ := obind_eq_some.mp h
  obtain ⟨props, -, h⟩ := obind_eq_some.mp h
  obtain ⟨g, -, h⟩ := obind_eq_some.mp h
  obtain ⟨dv, -, h⟩ := obind_eq_some.mp h
  obtain ⟨pv, -, h⟩ := obind_eq_some.mp h
  obtain ⟨ps, -, h⟩ := obind_eq_some.mp h
  obtain ⟨tzv, -, h⟩ := obind_eq_some.mp h
  obtain ⟨ts, -, h⟩ := obind_eq_some.mp h
  obtain ⟨tnv, -, h⟩ := obind_eq_some.mp h
  obtain ⟨zv, -, h⟩ := obind_eq_some.mp h
  obtain ⟨zq, -, h⟩ := obind_eq_some.mp h
  obtain ⟨b0, -, h⟩ := obind_eq_some.mp h
  obtain ⟨b1, -, h⟩ := obind_eq_some.mp h
  obtain ⟨b2, -, h⟩ := obind_eq_some.mp h
  obtain ⟨b3, -, h⟩ := obind_eq_some.mp h
  obtain ⟨geom, -, h⟩ := obind_eq_some.mp h
  have h2 := Option.some.inj h
  subst h2
  rfl

/-- A successfully constructed record's optional fields are the `as_str`
views of the optional property values. -/
lemma fromFeature_optional_fields (idx : Nat) (f : Feature) (props : Properties)
    (b0 b1 b2 b3 : ℚ) (g : GeoJsonValue) (geom : Geometry) (dv tv : JsonValue)
    (ps ts : String) (zq : ℚ)
    (hb : f.bbox = some [b0, b1, b2, b3])
    (hp : f.properties = some props)
    (hg : f.geometry = some g)
    (hgc : geoJsonValueToGeometry g = some geom)
    (hdv : lookupProp props "dst_places" = some dv)
    (hps : lookupProp props "places" = some (JsonValue.str ps))
    (hts : lookupProp props "time_zone" = some (JsonValue.str ts))
    (htv : lookupProp props "tz_name1st" = some tv)
    (hzq : lookupProp props "zone" = some (JsonValue.num zq)) :
    nedTimezoneFromFeature idx f
      = some { id := idx, identifier := tv.as_str, description := ps,
               dst_description := dv.as_str, offset := ts, zone := zq,
               raw_offset := rustRound (zq * 3600),
               bbox := Rect.new ⟨b0, b1⟩ ⟨b2, b3⟩, geometry := geom } := by
  unfold nedTimezoneFromFeature
  refine obind_eq_some.mpr ⟨_, hb, ?_⟩
  refine obind_eq_some.mpr ⟨_, hp, ?_⟩
  refine obind_eq_some.mpr ⟨_, hg, ?_⟩
  refine obind_eq_some.mpr ⟨_, hdv, ?_⟩
  refine obind_eq_some.mpr ⟨_, hps, ?_⟩
  refine obind_eq_some.mpr ⟨_, rfl, ?_⟩
  refine obind_eq_some.mpr ⟨_, hts, ?_⟩
  refine obind_eq_some.mpr ⟨_, rfl, ?_⟩
  refine obind_eq_some.mpr ⟨_, htv, ?_⟩
  refine obind_eq_some.mpr ⟨_, hzq, ?_⟩
  refine obind_eq_some.mpr ⟨_, rfl, ?_⟩
  refine obind_eq_some.mpr ⟨_, rfl, ?_⟩
  refine obind_eq_some.mpr ⟨_, rfl, ?_⟩
  refine obind_eq_some.mpr ⟨_, rfl, ?_⟩
  refine obind_eq_some.mpr ⟨_, rfl, ?_⟩
  refine obind_eq_some.mpr ⟨_, hgc, ?_⟩
  rfl

/-- In a duplicate-free list every member is counted once. -/
lemma count_eq_one_of_nodup_mem {α : Type} [BEq α] [LawfulBEq α] {l : List α} :
    l.Nodup → ∀ {a : α}, a ∈ l → l.count a = 1 := by
  induction l with
  | nil => intro _ a ha; cases ha
  | cons b t ih =>
    intro hnd a ha
    rw [List.nodup_cons] at hnd
    rw [List.count_cons]
    rcases List.mem_cons.mp ha with rfl | hat
    · rw [List.count_eq_zero.mpr hnd.1]
      simp
    · have hba : (b == a) = false := by
        rw [beq_eq_false_iff_ne]
        intro hbeq
        exact hnd.1 (hbeq ▸ hat)
      rw [ih hnd.2 hat, hba]
      simp

/-- The scenario A cache holds exactly the test polygon at the origin
cell. -/
lemma scenarioA_cell00 :
    get_cache_from_timezones Geometry.intersects scenarioATimezones (0, 0) = some [0] := by
  rw [get_cache_apply, if_pos (by omega), scenarioA_cellEntry, if_pos (by omega)]

/-- Reading a defaulted element inside the list is reading the list. -/
lemma getD_of_lt (l : List RoundInt) (i : Nat) (h : i < l.length) :
    some (l.getD i (-1)) = l.get? i := by
  rw [List.getD_eq_getElem?_getD, List.get?_eq_getElem?, List.getElem?_eq_getElem h]
  rfl

/-- Reading a defaulted element past the end yields the default. -/
lemma getD_of_ge (l : List RoundInt) (i : Nat) (h : l.length ≤ i) :
    l.getD i (-1) = -1 := by
  rw [List.getD_eq_getElem?_getD, List.getElem?_eq_none h]
  rfl

/-! The claims. -/

/-- C1: for every dataset and every cell (lng,lat) with lng ∈ [-180,179] and
lat ∈ [-90,89], the entry produced by `get_cache_from_timezones` is exactly
the (id-cast) list of the dataset records whose geometry intersects the
cell's unit rectangle under the intersects predicate — no id of a
non-intersecting record is included, and no intersecting record is
omitted. -/
theorem c1_cache_entry_exact {G : Type} (intersects : G → Rect → Bool)
    (timezones : List (NedTimezone G)) (x y : Int)
    (hx1 : -180 ≤ x) (hx2 : x ≤ 179) (hy1 : -90 ≤ y) (hy2 : y ≤ 89) :
    get_cache_from_timezones intersects timezones (x, y)
      = some ((timezones.filter (fun tz => intersects tz.geometry (cellRect x y))).map
          (fun tz => toRoundInt tz.id)) := by
  rw [get_cache_apply, if_pos ⟨hx1, by omega, hy1, by omega⟩, cellEntry_eq]

/-- Witness for C1 at the concrete scenario A dataset and origin cell. -/
theorem c1_cache_entry_exact_witness :
    get_cache_from_timezones Geometry.intersects scenarioATimezones (0, 0)
      = some ((scenarioATimezones.filter
          (fun tz => Geometry.intersects tz.geometry (cellRect 0 0))).map
          (fun tz => toRoundInt tz.id)) :=
  c1_cache_entry_exact Geometry.intersects scenarioATimezones 0 0
    (by decide) (by decide) (by decide) (by decide)

/-- C2 counterexample: the claim says the cell (10,0) — whose closed unit
rectangle shares only the boundary edge lng = 10 with the polygon — gets the
empty entry, but boundary contact counts as intersecting, so the code
produces `[0]` there. -/
theorem c2_scenarioA_counterexample :
    get_cache_from_timezones Geometry.intersects scenarioATimezones (10, 0) = some [0]
    ∧ ([0] : List RoundInt) ≠ [] := by
  constructor
  · rw [get_cache_apply, if_pos (by omega), scenarioA_cellEntry, if_pos (by omega)]
  · decide

/-- C2 (amended): for the scenario A dataset, every cell with lng ∈ [-11,10]
and lat ∈ [-11,10] — the cells whose closed unit rectangle shares at least a
boundary point with the closed polygon — gets entry `[0]`, and every other
cell gets `[]`. -/
theorem c2_scenarioA_amended (x y : Int)
    (hx1 : -180 ≤ x) (hx2 : x ≤ 179) (hy1 : -90 ≤ y) (hy2 : y ≤ 89) :
    get_cache_from_timezones Geometry.intersects scenarioATimezones (x, y)
      = some (if -11 ≤ x ∧ x ≤ 10 ∧ -11 ≤ y ∧ y ≤ 10 then [0] else []) := by
  rw [get_cache_apply, if_pos ⟨hx1, by omega, hy1, by omega⟩, scenarioA_cellEntry]

/-- Witness for the amended C2 at a concrete cell. -/
theorem c2_scenarioA_amended_witness :
    get_cache_from_timezones Geometry.intersects scenarioATimezones (0, 0)
      = some (if -11 ≤ (0 : Int) ∧ (0 : Int) ≤ 10 ∧ -11 ≤ (0 : Int) ∧ (0 : Int) ≤ 10
          then [0] else []) :=
  c2_scenarioA_amended 0 0 (by decide) (by decide) (by decide) (by decide)

/-- C3: inserting the sweep's entries in any two orders (any interleaving of
any worker pool's writes, in particular two runs on the unchanged dataset
with different pool sizes) gives maps with identical encoded artifacts. -/
theorem c3_encode_deterministic {G : Type} (intersects : G → Rect → Bool)
    (timezones : List (NedTimezone G))
    (order1 order2 : List ((Int × Int) × List RoundInt))
    (h1 : order1.Perm (sweepEntries intersects timezones))
    (h2 : order2.Perm (sweepEntries intersects timezones)) :
    encodeCache (insertAll order1) = encodeCache (insertAll order2) := by
  unfold encodeCache
  apply flatMap_congr_mem
  intro x _
  apply List.map_congr_left
  intro y _
  rw [lookup_perm_sweep h1, lookup_perm_sweep h2]

/-- Witness for C3: the canonical order against its reverse, on the scenario
A dataset. -/
theorem c3_encode_deterministic_witness :
    encodeCache (insertAll (sweepEntries Geometry.intersects scenarioATimezones).reverse)
      = encodeCache (insertAll (sweepEntries Geometry.intersects scenarioATimezones)) :=
  c3_encode_deterministic Geometry.intersects scenarioATimezones _ _
    (List.reverse_perm _) (List.Perm.refl _)

/-- C4: for a candidate list of length L ≤ 5, `i16_vec_to_tomezoneids`
returns the 5-slot array whose first L slots are the list's elements in
order and whose remaining slots are all -1; for L > 5 it fails (the panic is
`none`) rather than truncating. -/
theorem c4_tomezoneids_spec (value : List RoundInt) :
    (value.length ≤ 5 →
      ∃ r, i16_vec_to_tomezoneids value = some r ∧ r.length = 5 ∧
        (∀ i : Nat, i < value.length → r.get? i = value.get? i) ∧
        (∀ i : Nat, value.length ≤ i → i < 5 → r.get? i = some (-1)))
    ∧ (5 < value.length → i16_vec_to_tomezoneids value = none) := by
  constructor
  · intro hle
    refine ⟨[value.getD 0 (-1), value.getD 1 (-1), value.getD 2 (-1),
        value.getD 3 (-1), value.getD 4 (-1)], ?_, rfl, ?_, ?_⟩
    · unfold i16_vec_to_tomezoneids TIMEZONE_LIST_LENGTH
      rw [if_neg (by omega)]
    · intro i hi
      have hi5 : i < 5 := by omega
      interval_cases i <;> simp only [List.get?] <;> exact getD_of_lt value _ (by omega)
    · intro i hge hi5
      interval_cases i <;> simp only [List.get?] <;> rw [getD_of_ge value _ (by omega)]
  · intro hgt
    unfold i16_vec_to_tomezoneids TIMEZONE_LIST_LENGTH
    rw [if_pos (by omega)]

/-- Witness for C4: a two-element list converts with -1 padding, a
six-element list fails. -/
theorem c4_tomezoneids_spec_witness :
    (∃ r, i16_vec_to_tomezoneids [7, 8] = some r ∧ r.length = 5 ∧
        (∀ i : Nat, i < ([7, 8] : List RoundInt).length →
          r.get? i = ([7, 8] : List RoundInt).get? i) ∧
        (∀ i : Nat, ([7, 8] : List RoundInt).length ≤ i → i < 5 → r.get? i = some (-1)))
    ∧ i16_vec_to_tomezoneids [1, 2, 3, 4, 5, 6] = none :=
  ⟨(c4_tomezoneids_spec [7, 8]).1 (by decide),
   (c4_tomezoneids_spec [1, 2, 3, 4, 5, 6]).2 (by decide)⟩

/-- C5 counterexample: a feature carrying the three required fields with the
right types but omitting the keys "dst_places" and "tz_name1st" makes
construction fail (the `unwrap` on the missing key panics) — it does not
succeed with `None` fields as the claim states. -/
theorem c5_optional_counterexample :
    lookupProp propsMissingOptionals "dst_places" = none
    ∧ lookupProp propsMissingOptionals "tz_name1st" = none
    ∧ lookupProp propsMissingOptionals "places" = some (JsonValue.str "Test Places")
    ∧ lookupProp propsMissingOptionals "time_zone" = some (JsonValue.str "UTC+00:00")
    ∧ lookupProp propsMissingOptionals "zone" = some (JsonValue.num 0)
    ∧ nedTimezoneFromFeature 0 featureMissingOptionals = none
    ∧ get_timezones_from_features [featureMissingOptionals] = none :=
  ⟨rfl, rfl, rfl, rfl, rfl, rfl, rfl⟩

/-- C5 (amended): the keys "dst_places" and "tz_name1st" must be present,
but their values are optional: when a feature has the required fields with
correct types and carries both optional keys with non-string values (e.g.
JSON null), construction succeeds and the corresponding record fields
(dst_description, identifier) are None.  A feature omitting either key fails
construction. -/
theorem c5_optional_values_amended (idx : Nat) (f : Feature) (props : Properties)
    (b0 b1 b2 b3 : ℚ) (g : GeoJsonValue) (geom : Geometry) (dv tv : JsonValue)
    (ps ts : String) (zq : ℚ)
    (hb : f.bbox = some [b0, b1, b2, b3])
    (hp : f.properties = some props)
    (hg : f.geometry = some g)
    (hgc : geoJsonValueToGeometry g = some geom)
    (hdv : lookupProp props "dst_places" = some dv) (hdvs : dv.as_str = none)
    (hps : lookupProp props "places" = some (JsonValue.str ps))
    (hts : lookupProp props "time_zone" = some (JsonValue.str ts))
    (htv : lookupProp props "tz_name1st" = some tv) (htvs : tv.as_str = none)
    (hzq : lookupProp props "zone" = some (JsonValue.num zq)) :
    ∃ tz, nedTimezoneFromFeature idx f = some tz
      ∧ tz.dst_description = none ∧ tz.identifier = none := by
  refine ⟨_, fromFeature_optional_fields idx f props b0 b1 b2 b3 g geom dv tv ps ts zq
    hb hp hg hgc hdv hps hts htv hzq, ?_, ?_⟩
  · exact hdvs
  · exact htvs

/-- Witness for the amended C5: a feature with both optional keys bound to
JSON null constructs a record with None optional fields. -/
theorem c5_optional_values_amended_witness :
    ∃ tz, nedTimezoneFromFeature 0 featureNullOptionals = some tz
      ∧ tz.dst_description = none ∧ tz.identifier = none :=
  c5_optional_values_amended 0 featureNullOptionals propsNullOptionals
    (-10) (-10) 10 10 (GeoJsonValue.rectPolygon (Rect.new ⟨-10, -10⟩ ⟨10, 10⟩))
    (Geometry.rectPolygon (Rect.new ⟨-10, -10⟩ ⟨10, 10⟩)) JsonValue.null JsonValue.null
    "Test Places" "UTC+00:00" 0 rfl rfl rfl rfl rfl rfl rfl rfl rfl rfl rfl

/-- C6: a feature collection containing a feature whose property map lacks
the key "time_zone" fails dataset construction as a whole; no record with a
defaulted offset is ever produced. -/
theorem c6_missing_required_fails (features : List Feature) (f : Feature)
    (props : Properties) (hf : f ∈ features) (hp : f.properties = some props)
    (hmiss : lookupProp props "time_zone" = none) :
    get_timezones_from_features features = none := by
  have hnone : ∀ idx, nedTimezoneFromFeature idx f = none :=
    fun idx => fromFeature_missing_tz_none idx f props hp hmiss
  unfold get_timezones_from_features
  exact mapM_enumFrom_none features f hf hnone 0

/-- Witness for C6 at a concrete collection. -/
theorem c6_missing_required_fails_witness :
    get_timezones_from_features [featureMissingTimeZone] = none :=
  c6_missing_required_fails [featureMissingTimeZone] featureMissingTimeZone
    propsMissingTimeZone (List.mem_singleton.mpr rfl) rfl rfl

/-- C7: the sweep's final map is defined exactly on the 360·180 = 64,800
cells (lng ∈ [-180,179], lat ∈ [-90,89]); each such key is written exactly
once by the sweep's entry list, which contains nothing else and has length
64,800. -/
theorem c7_cache_keys_exact {G : Type} (intersects : G → Rect → Bool)
    (timezones : List (NedTimezone G)) :
    (∀ x y : Int,
      (∃ e, get_cache_from_timezones intersects timezones (x, y) = some e)
        ↔ (-180 ≤ x ∧ x ≤ 179 ∧ -90 ≤ y ∧ y ≤ 89))
    ∧ (∀ k : Int × Int,
        ((sweepEntries intersects timezones).map Prod.fst).count k
          = if -180 ≤ k.1 ∧ k.1 ≤ 179 ∧ -90 ≤ k.2 ∧ k.2 ≤ 89 then 1 else 0)
    ∧ ((sweepEntries intersects timezones).map Prod.fst).length = 64800 := by
  refine ⟨?_, ?_, ?_⟩
  · intro x y
    rw [get_cache_apply]
    by_cases h : -180 ≤ x ∧ x < 180 ∧ -90 ≤ y ∧ y < 90
    · rw [if_pos h]
      exact ⟨fun _ => ⟨h.1, by omega, h.2.2.1, by omega⟩, fun _ => ⟨_, rfl⟩⟩
    · rw [if_neg h]
      refine ⟨fun he => ?_, fun hb => absurd ⟨hb.1, by omega, hb.2.2.1, by omega⟩ h⟩
      obtain ⟨e, he⟩ := he
      exact Option.noConfusion he
  · intro k
    rw [sweepEntries_keys]
    by_cases h : -180 ≤ k.1 ∧ k.1 ≤ 179 ∧ -90 ≤ k.2 ∧ k.2 ≤ 89
    · rw [if_pos h]
      exact count_eq_one_of_nodup_mem allCellKeys_nodup
        (mem_allCellKeys.mpr ⟨h.1, by omega, h.2.2.1, by omega⟩)
    · rw [if_neg h]
      refine List.count_eq_zero.mpr fun hm => ?_
      have hmm := mem_allCellKeys.mp hm
      exact h ⟨hmm.1, by omega, hmm.2.2.1, by omega⟩
  · rw [sweepEntries_keys]
    exact allCellKeys_length

/-- Witness for C7: the origin cell is present in the scenario A cache, and
a far-out key is counted zero times. -/
theorem c7_cache_keys_exact_witness :
    (∃ e, get_cache_from_timezones Geometry.intersects scenarioATimezones (0, 0) = some e)
    ∧ ((sweepEntries Geometry.intersects scenarioATimezones).map Prod.fst).length = 64800 :=
  ⟨((c7_cache_keys_exact Geometry.intersects scenarioATimezones).1 0 0).mpr (by decide),
   (c7_cache_keys_exact Geometry.intersects scenarioATimezones).2.2⟩

/-- C8 counterexample: with more than 32,768 records the `as i16` cast wraps
and the produced entry is no longer strictly ascending, so the claim's
universal statement over all datasets with sequential 0-based ids is
false. -/
theorem c8_ascending_counterexample :
    ¬ (∀ (timezones : List (NedTimezone Geometry)),
        (∀ i (h : i < timezones.length), (timezones.get ⟨i, h⟩).id = i) →
        ∀ (x y : Int) (e : List RoundInt),
          get_cache_from_timezones Geometry.intersects timezones (x, y) = some e →
          e.Pairwise (· < ·)) := by
  intro hclaim
  have hentry : get_cache_from_timezones Geometry.intersects bigTimezones (0, 0)
      = some ((List.range 32769).map (fun i => toRoundInt i)) := by
    rw [get_cache_apply, if_pos (by omega), bigTimezones_cellEntry]
  have hp := hclaim bigTimezones bigTimezones_ids 0 0 _ hentry
  rw [List.pairwise_map, List.pairwise_iff_getElem] at hp
  have h1 := hp 32767 32768 (by rw [List.length_range]; omega)
    (by rw [List.length_range]; omega) (by omega)
  rw [List.getElem_range, List.getElem_range] at h1
  exact absurd h1 (by decide)

/-- C8 (amended): for every dataset whose record ids are the sequential
0-based positions and which has at most 32,768 records (so every id fits in
i16 and the cast is the identity), every produced entry is strictly
ascending (hence duplicate-free), because records are tested in ascending-id
dataset order. -/
theorem c8_entries_ascending {G : Type} (intersects : G → Rect → Bool)
    (timezones : List (NedTimezone G))
    (hids : ∀ i (h : i < timezones.length), (timezones.get ⟨i, h⟩).id = i)
    (hlen : timezones.length ≤ 32768)
    (x y : Int) (e : List RoundInt)
    (he : get_cache_from_timezones intersects timezones (x, y) = some e) :
    e.Pairwise (· < ·) := by
  rw [get_cache_apply] at he
  by_cases h : -180 ≤ x ∧ x < 180 ∧ -90 ≤ y ∧ y < 90
  · rw [if_pos h] at he
    have h2 := Option.some.inj he
    subst h2
    rw [cellEntry_eq, List.pairwise_map]
    apply List.Pairwise.filter
    rw [List.pairwise_iff_get]
    intro i j hij
    have hi : (timezones.get i).id = i.1 := hids i.1 i.2
    have hj : (timezones.get j).id = j.1 := hids j.1 j.2
    rw [hi, hj, toRoundInt_nat_eq_self (lt_of_lt_of_le i.2 hlen),
      toRoundInt_nat_eq_self (lt_of_lt_of_le j.2 hlen)]
    exact_mod_cast hij
  · rw [if_neg h] at he
    exact Option.noConfusion he

/-- Witness for the amended C8 on the scenario A dataset at the origin
cell. -/
theorem c8_entries_ascending_witness :
    ∃ e, get_cache_from_timezones Geometry.intersects scenarioATimezones (0, 0) = some e
      ∧ e.Pairwise (· < ·) :=
  ⟨[0], scenarioA_cell00,
    c8_entries_ascending Geometry.intersects scenarioATimezones
      (fun i h => by
        have h1 : i < 1 := h
        interval_cases i
        rfl)
      (by decide) 0 0 [0] scenarioA_cell00⟩

/-- C9: a successful dataset construction has one record per feature, the
record at position i was built from the feature at input position i, and it
carries id = i (so ids are unique within one build). -/
theorem c9_sequential_ids (features : List Feature)
    (timezones : List (NedTimezone Geometry))
    (h : get_timezones_from_features features = some timezones) :
    timezones.length = features.length ∧
    ∀ i (hi : i < timezones.length),
      (timezones.get ⟨i, hi⟩).id = i ∧
      ∃ hf : i < features.length,
        nedTimezoneFromFeature i (features.get ⟨i, hf⟩) = some (timezones.get ⟨i, hi⟩) := by
  unfold get_timezones_from_features at h
  obtain ⟨hlen, hrest⟩ := mapM_enumFrom_some features 0 timezones h
  refine ⟨hlen, ?_⟩
  intro i hi
  obtain ⟨hf, hfe⟩ := hrest i hi
  rw [Nat.zero_add] at hfe
  exact ⟨fromFeature_id i _ _ hfe, hf, hfe⟩

/-- Witness for C9 on the empty collection. -/
theorem c9_sequential_ids_witness :
    ([] : List (NedTimezone Geometry)).length = ([] : List Feature).length :=
  (c9_sequential_ids [] [] rfl).1

/-- C10: every value stored in a cache entry is the `as i16` cast of some
record's usize id; the cast is the identity exactly on ids up to 32,767; and
an id congruent to 65,535 mod 2^16 is stored as -1, the unused-slot sentinel
of the `NedTimezoneIds` encoding. -/
theorem c10_id_cast_wraps :
    (∀ (G : Type) (intersects : G → Rect → Bool) (timezones : List (NedTimezone G))
        (x y : Int) (e : List RoundInt) (v : RoundInt),
        get_cache_from_timezones intersects timezones (x, y) = some e → v ∈ e →
        ∃ tz ∈ timezones, v = toRoundInt tz.id)
    ∧ (∀ n : Nat, toRoundInt n = (n : Int) ↔ n ≤ 32767)
    ∧ (∀ n : Nat, n % 65536 = 65535 → toRoundInt n = -1) := by
  refine ⟨?_, ?_, ?_⟩
  · intro G intersects timezones x y e v he hv
    rw [get_cache_apply] at he
    by_cases h : -180 ≤ x ∧ x < 180 ∧ -90 ≤ y ∧ y < 90
    · rw [if_pos h] at he
      have h2 := Option.some.inj he
      subst h2
      rw [cellEntry_eq, List.mem_map] at hv
      obtain ⟨tz, htz, rfl⟩ := hv
      exact ⟨tz, List.mem_of_mem_filter htz, rfl⟩
    · rw [if_neg h] at he
      exact Option.noConfusion he
  · intro n
    unfold toRoundInt
    split
    · omega
    · omega
  · intro n hn
    unfold toRoundInt
    rw [hn]
    decide

/-- Witness for C10 on the scenario A cache at the origin cell. -/
theorem c10_id_cast_wraps_witness :
    (∃ tz ∈ scenarioATimezones, (0 : RoundInt) = toRoundInt tz.id)
    ∧ toRoundInt 5 = ((5 : Nat) : Int)
    ∧ toRoundInt 65535 = -1 :=
  ⟨c10_id_cast_wraps.1 Geometry Geometry.intersects scenarioATimezones 0 0 [0] 0
      scenarioA_cell00 (List.mem_singleton.mpr rfl),
   (c10_id_cast_wraps.2.1 5).mpr (by decide),
   c10_id_cast_wraps.2.2 65535 rfl⟩

end Rtz
